import Mathlib

/-!
Verification of the path-exclusion core of this repository.

The development embeds, as executable Lean definitions:

* `lib/util/path-util.js` — `normalizeFilepath` and `resolveFilepath`
  (together with a model of Node's posix `path.relative` / `path.isAbsolute`,
  which that module calls);
* the `IgnoredPaths` component (pattern compiler, ignore-file locator and
  matching engine).  Its implementation file `lib/ignored-paths.js` is not part
  of the sources here (only its test suite is), so those definitions are
  modelled from the specification and checked against the behaviour asserted
  by the test suite;
* the `NodeEventGenerator` module.

Paths are treated in posix form (the normalizer rewrites the Windows
separator first).  All definitions are computable; bounded recursion in the
glob matcher uses an explicit fuel argument that provably never runs out for
the initial fuel supplied by the wrappers.
-/

/-! ## String helpers (executable, kernel-reducible) -/

/-- Does `s` start with the string `p`? -/
def startsWithStr (s p : String) : Bool :=
  p.toList.isPrefixOf s.toList

/-- Drop the first character of `s` (identity on the empty string). -/
def strTail (s : String) : String :=
  match s.toList with
  | _ :: rest => ⟨rest⟩
  | [] => s

/-- Split a character list at every occurrence of `sep`.  Always returns a
non-empty list of (possibly empty) chunks, like JavaScript's `split`. -/
def splitChars (sep : Char) : List Char → List (List Char)
  | [] => [[]]
  | c :: cs =>
    if c = sep then [] :: splitChars sep cs
    else
      match splitChars sep cs with
      | [] => [[c]]
      | s :: ss => (c :: s) :: ss

/-- Split a string into its `/`-separated segments. -/
def splitOnSlash (p : String) : List String :=
  (splitChars '/' p.toList).map (fun cs => String.mk cs)

/-- Join segments back with `/` separators. -/
def joinSegs : List String → String
  | [] => ""
  | [s] => s
  | s :: ss => s ++ "/" ++ joinSegs ss

/-! ## Path Normalizer — translated from `lib/util/path-util.js` -/

/-- Remove one leading `./` from a character list, if present
(the `filepath.replace(/^\.\//, "")` step). -/
def stripDotSlash (cs : List Char) : List Char :=
  match cs with
  | c1 :: c2 :: rest => if c1 = '.' ∧ c2 = '/' then rest else c1 :: c2 :: rest
  | other => other

/-- `normalizeFilepath` from `lib/util/path-util.js`: replace every `\`
with `/`, then strip one leading `./`. -/
def normalizeFilepath (filepath : String) : String :=
  ⟨stripDotSlash (filepath.toList.map (fun c => if c = '\\' then '/' else c))⟩

/-- Node's posix `path.isAbsolute`: the path starts with a separator. -/
def isAbsolutePath (p : String) : Bool :=
  match p.toList with
  | '/' :: _ => true
  | _ => false

/-- Resolve an absolute posix path to its segment list, dropping empty and
`.` segments and applying `..` (the normalization performed inside Node's
`path.resolve`/`path.relative`). -/
def pathResolveSegs (p : String) : List String :=
  (splitOnSlash p).foldl
    (fun acc s =>
      if s = "" ∨ s = "." then acc
      else if s = ".." then acc.dropLast
      else acc ++ [s])
    []

/-- Length of the common prefix of two segment lists. -/
def commonPrefixLen : List String → List String → Nat
  | a :: as, b :: bs => if a = b then commonPrefixLen as bs + 1 else 0
  | _, _ => 0

/-- Model of Node's posix `path.relative` on two absolute paths: drop the
common leading segments, then go up with `..` for what remains of the base
and down into what remains of the target. -/
def pathRelative (fromPath toPath : String) : String :=
  let f := pathResolveSegs fromPath
  let t := pathResolveSegs toPath
  let n := commonPrefixLen f t
  joinSegs (List.replicate (f.length - n) ".." ++ t.drop n)

/-- Remove a single leading `/` (the `filepath.replace(/^\//, "")` step). -/
def stripLeadingSlash (s : String) : String :=
  match s.toList with
  | '/' :: rest => ⟨rest⟩
  | _ => s

/-- Error raised by `resolveFilepath` when it receives a relative path where
an absolute one is required (`throw new Error(...)` in the source; the spec
names this condition `InvalidArgument`). -/
inductive PathError where
  | invalidArgument (msg : String)
deriving DecidableEq

/-- `resolveFilepath` from `lib/util/path-util.js`.  `filepath` must be
absolute.  A supplied `baseDir` is checked with JavaScript truthiness first:
the empty string is falsy, so `if (baseDir)` sends it to the
strip-leading-slash branch exactly like an omitted argument. -/
def resolveFilepath (filepath : String) (baseDir : Option String) :
    Except PathError String :=
  if isAbsolutePath filepath then
    match baseDir with
    | some b =>
      if b = "" then Except.ok (stripLeadingSlash filepath)
      else if isAbsolutePath b then Except.ok (pathRelative b filepath)
      else Except.error (PathError.invalidArgument "baseDir should be an absolute path")
    | none => Except.ok (stripLeadingSlash filepath)
  else
    Except.error (PathError.invalidArgument "filepath should be an absolute path")

/-! ## Glob matching core

Modelled from the spec: the restricted pattern grammar of the matching
engine — literal characters, `*` (any run of characters excluding the
separator) and `**` (any number of whole segments, including zero) — with
directory-prefix semantics (a pattern that matches a leading group of
segments also matches everything nested beneath them).

The two matchers use an explicit fuel argument to stay structurally
recursive.  Every recursive call strictly decreases `pattern length +
input length`, so the initial fuel `pattern length + input length + 1`
supplied by the wrappers can never be exhausted. -/

/-- Fueled single-segment matcher: `*` matches any run of characters. -/
def segMatchF : Nat → List Char → List Char → Bool
  | 0, _, _ => false
  | f + 1, pat, s =>
    match pat, s with
    | [], [] => true
    | [], _ :: _ => false
    | p :: ps, [] => if p == '*' then segMatchF f ps [] else false
    | p :: ps, c :: cs =>
      if p == '*' then segMatchF f ps (c :: cs) || segMatchF f (p :: ps) cs
      else p == c && segMatchF f ps cs

/-- Does one pattern segment match one path segment? -/
def segMatch (pat s : List Char) : Bool :=
  segMatchF (pat.length + s.length + 1) pat s

/-- Fueled segment-list matcher: `**` matches any number of segments, and an
exhausted pattern matches any remaining segments (directory-prefix
semantics). -/
def segsMatchF : Nat → List String → List String → Bool
  | 0, _, _ => false
  | f + 1, pat, ss =>
    match pat with
    | [] => true
    | p :: ps =>
      match ss with
      | [] => if p == "**" then segsMatchF f ps [] else false
      | s :: ss' =>
        if p == "**" then segsMatchF f ps (s :: ss') || segsMatchF f (p :: ps) ss'
        else segMatch p.toList s.toList && segsMatchF f ps ss'

/-- Does the pattern match a leading group of the path's segments? -/
def segsMatch (pat path : List String) : Bool :=
  segsMatchF (pat.length + path.length + 1) pat path

/-- Try the pattern at every segment boundary of the path (unanchored
rules match at any depth). -/
def tailsMatch (pat : List String) : List String → Bool
  | [] => segsMatch pat []
  | s :: ss => segsMatch pat (s :: ss) || tailsMatch pat ss

/-! ## Pattern Compiler and Matching Engine

Modelled from the spec: `lib/ignored-paths.js` is not among the sources
(only its test suite is), so the rule set, the compiler, the locator and
`contains` below follow the specification's component design, and the
theorems check them against the behaviour the test suite asserts. -/

/-- A compiled rule: raw pattern text plus the negation flag (`!` lines). -/
structure Rule where
  pattern : String
  isNegation : Bool
deriving DecidableEq

/-- Construction options (spec §6): all fields optional with these
defaults. -/
structure Options where
  ignore : Bool := true
  cwd : String := "."
  ignorePath : Option String := none
  ignorePattern : List String := []
  dotfiles : Bool := false

/-- Errors of the ignored-paths component (spec §7). -/
inductive IgnoreError where
  | ignoreFileUnreadable (msg : String)
deriving DecidableEq

/-- The compiled rule set plus base directory and the dotfile gate
(spec §3). -/
structure Context where
  baseDir : String
  ruleSet : List Rule
  dotfileRule : Bool
  ignoreEnabled : Bool
deriving DecidableEq

/-- The two built-in vendor-directory default patterns (anchored). -/
def defaultPatterns : List String :=
  ["/node_modules/", "/bower_components/"]

/-- The conventional ignore-file name looked up in `cwd`. -/
def eslintIgnoreFilename : String := ".eslintignore"

/-- Directory of a path: everything before the final separator. -/
def dirname (p : String) : String :=
  joinSegs (splitOnSlash p).dropLast

/-- Strip one trailing carriage return (CRLF tolerance, spec §4.2). -/
def stripCR (l : List Char) : List Char :=
  match l.reverse with
  | '\r' :: rest => rest.reverse
  | _ => l

/-- Split file content into lines, tolerating CRLF endings. -/
def splitLines (content : String) : List String :=
  (splitChars '\n' content.toList).map (fun l => String.mk (stripCR l))

/-- Blank lines and lines whose first non-whitespace character is `#`
are dropped before compilation (spec §4.3). -/
def isIgnorableLine (l : String) : Bool :=
  match l.toList.dropWhile Char.isWhitespace with
  | [] => true
  | c :: _ => c == '#'

/-- Compile one raw line: a leading `!` makes a negation rule over the rest
of the line; anything else is a plain ignore rule. -/
def compileLine (l : String) : Rule :=
  match l.toList with
  | '!' :: rest => { pattern := String.mk rest, isNegation := true }
  | _ => { pattern := l, isNegation := false }

/-- Compile the ordered rule set: file rules first, then inline
`ignorePattern` rules, then the vendor defaults.  `ignore == false`
disables all of them (spec §3); the dotfile rule is kept out of this list
and gated separately in the engine. -/
def compileRules (fileLines inlinePatterns : List String) (ignoreEnabled : Bool) :
    List Rule :=
  if ignoreEnabled then
    (fileLines.filter (fun l => !isIgnorableLine l)).map compileLine
      ++ inlinePatterns.map compileLine
      ++ defaultPatterns.map (fun p => { pattern := p, isNegation := false })
  else []

/-- Ignore File Locator (spec §4.2).  `fsRead` abstracts the single
filesystem read: it returns the file content, or `none` when the path
cannot be read.  An explicit `ignorePath` that cannot be read is a fatal
construction error whose message carries the required phrase; otherwise the
fixed-name file is looked up only in `cwd` (no parent traversal), and its
absence yields the sentinel base directory `"."` with no file rules. -/
def locate (fsRead : String → Option String) (opts : Options) :
    Except IgnoreError (String × List String) :=
  match opts.ignorePath with
  | some p =>
    match fsRead p with
    | none => Except.error (IgnoreError.ignoreFileUnreadable ("Cannot read ignore file: " ++ p))
    | some content => Except.ok (dirname p, splitLines content)
  | none =>
    match fsRead (opts.cwd ++ "/" ++ eslintIgnoreFilename) with
    | some content => Except.ok (opts.cwd, splitLines content)
    | none => Except.ok (".", [])

/-- Build the immutable `Context` at construction time: locate the ignore
file, compile the rule set, record the dotfile gate (`dotfiles` defaults to
false, so the synthetic dotfile rule is active unless `dotfiles == true`,
independently of `ignore`). -/
def IgnoredPaths.build (fsRead : String → Option String) (opts : Options) :
    Except IgnoreError Context :=
  Except.map
    (fun bl =>
      { baseDir := bl.1,
        ruleSet := compileRules bl.2 opts.ignorePattern opts.ignore,
        dotfileRule := !opts.dotfiles,
        ignoreEnabled := opts.ignore })
    (locate fsRead opts)

/-- Drop the empty segment produced by a trailing `/` in a pattern
(directory patterns such as `/node_modules/`). -/
def dropTrailingEmpty (ss : List String) : List String :=
  match ss.reverse with
  | "" :: rest => rest.reverse
  | _ => ss

/-- Does one rule's pattern match a (normalized, base-relative) path?
A leading `/` anchors the pattern at the base directory; otherwise it is
tried at every segment boundary.  A trailing `/` (directory pattern)
contributes an empty segment that is dropped. -/
def ruleMatches (pattern path : String) : Bool :=
  let segs := splitOnSlash path
  if startsWithStr pattern "/" then
    segsMatch (dropTrailingEmpty (splitOnSlash (strTail pattern))) segs
  else
    tailsMatch (dropTrailingEmpty (splitOnSlash pattern)) segs

/-- Is this segment a dotfile segment?  The synthetic dotfile rule matches a
segment beginning with `.` at any depth; the relative-navigation segments
`.` and `..` are not dotfiles (the engine leaves `./x` and `../x` query
paths unresolved and they must fall through as included). -/
def isDotfileSegment (s : String) : Bool :=
  match s.toList with
  | '.' :: rest => !rest.isEmpty && !(rest == ['.'])
  | _ => false

/-- The synthetic dotfile-exclusion rule: some segment of the path is a
dotfile segment. -/
def dotfileMatch (path : String) : Bool :=
  (splitOnSlash path).any isDotfileSegment

/-- Linear scan over the ordered rule set ("last match wins"): a matching
plain rule sets the verdict to excluded, a matching negation rule sets it
back to included, a non-matching rule leaves it unchanged. -/
def scanRules : List Rule → String → Bool → Bool
  | [], _, v => v
  | r :: rs, p, v =>
    scanRules rs p (if ruleMatches r.pattern p then !r.isNegation else v)

/-- Normalize the query and, when absolute, make it relative to the base
directory (for the sentinel base `"."` a single leading separator is
stripped instead). -/
def Context.resolved (ctx : Context) (query : String) : String :=
  let p := normalizeFilepath query
  if isAbsolutePath p then
    if ctx.baseDir = "." then stripLeadingSlash p
    else pathRelative ctx.baseDir p
  else p

/-- The query surface: is this path excluded?  Every rule is evaluated in
order; the synthetic dotfile rule sits after all compiled rules and is
gated only by the dotfile flag. -/
def Context.contains (ctx : Context) (query : String) : Bool :=
  let p := ctx.resolved query
  let verdict := scanRules ctx.ruleSet p false
  if ctx.dotfileRule && dotfileMatch p then true else verdict

/-- Build a context and answer one query (construction errors propagate). -/
def containsE (fsRead : String → Option String) (opts : Options) (query : String) :
    Except IgnoreError Bool :=
  Except.map (fun ctx => Context.contains ctx query) (IgnoredPaths.build fsRead opts)

/-! ## NodeEventGenerator — translated from the AST event generator module

The constructor stores `null` into `selectors` and keeps the emitter.  The
generator object has no `_events` property — nothing in the module ever
assigns one — so the lazy selector-population branch of `enterNode` reads
`undefined` there, and `Object.keys(undefined)` raises a `TypeError`.  Were
the property ever present, the branch would call `parseSelector`, an
identifier the module neither defines nor imports, raising a
`ReferenceError`.  The embedding returns the events emitted during a call,
so a faulting call emits nothing. -/

/-- Destination of the generated events (opaque stand-in for a Node
`EventEmitter`; only its identity matters to the module). -/
structure EventEmitter where
  registered : List String := []
deriving DecidableEq

/-- An AST node, reduced to the only field the module reads. -/
structure ASTNode where
  type : String
deriving DecidableEq

/-- JavaScript runtime faults that the module can raise. -/
inductive JsExn where
  | typeError (msg : String)
  | referenceError (msg : String)
deriving DecidableEq

/-- The generator object: `selectors` starts as `null`; `eventsObj` models
the `_events` property, which the constructor does not create. -/
structure NodeEventGenerator where
  selectors : Option (List String)
  emitter : EventEmitter
  eventsObj : Option (List String)

/-- `new NodeEventGenerator(emitter)`. -/
def NodeEventGenerator.new (em : EventEmitter) : NodeEventGenerator :=
  { selectors := none, emitter := em, eventsObj := none }

/-- A call to the undefined identifier `parseSelector`: always a
`ReferenceError`. -/
def parseSelectorCall (_sel : String) : Except JsExn String :=
  Except.error (JsExn.referenceError "parseSelector is not defined")

/-- `enterNode`: when `selectors` is still `null`, populate it from the keys
of `this._events` — reading the keys of `undefined` is a `TypeError`, and
mapping a non-empty key list through `parseSelector` is a `ReferenceError`
— then emit the node-type event.  Returns the updated generator and the
list of events emitted by the call. -/
def NodeEventGenerator.enterNode (g : NodeEventGenerator) (node : ASTNode) :
    Except JsExn (NodeEventGenerator × List String) :=
  match g.selectors with
  | none =>
    match g.eventsObj with
    | none => Except.error (JsExn.typeError "Cannot convert undefined or null to object")
    | some keys =>
      match keys.mapM parseSelectorCall with
      | Except.error e => Except.error e
      | Except.ok sels => Except.ok ({ g with selectors := some sels }, [node.type])
  | some _ => Except.ok (g, [node.type])

/-- `leaveNode`: emits the `<type>:exit` event. -/
def NodeEventGenerator.leaveNode (g : NodeEventGenerator) (node : ASTNode) :
    Except JsExn (NodeEventGenerator × List String) :=
  Except.ok (g, [node.type ++ ":exit"])

/-! ## Spec-side reformulation and concrete fixtures used by the theorems -/

/-- Spec-side restatement of the normalizer (spec §4.1): replace every
path separator with the forward-slash form, then strip exactly one leading
`./` if present.  Compared against `normalizeFilepath` below. -/
def normalizeFilepathSpec (filepath : String) : String :=
  let replaced := filepath.toList.map (fun c => if c = '\\' then '/' else c)
  if ['.', '/'].isPrefixOf replaced then String.mk (replaced.drop 2)
  else String.mk replaced

/-- A filesystem on which nothing can be read. -/
def fsEmpty : String → Option String := fun _ => none

/-- A filesystem holding the negation fixture: the ordered lines
`dir/*` then `!dir/foo.js`. -/
def fsNeg : String → Option String :=
  fun p => if p = "/base/.eslintignoreWithNegation" then some "dir/*\n!dir/foo.js" else none

/-- Construction options pointing at the negation fixture. -/
def optsNeg : Options :=
  { ignore := true, ignorePath := some "/base/.eslintignoreWithNegation" }

/-- A filesystem holding an empty ignore file at `/base/.eslintignore`. -/
def fsBase : String → Option String :=
  fun p => if p = "/base/.eslintignore" then some "" else none

/-- Construction options pointing at the `/base` ignore file, so the base
directory is `/base`. -/
def optsBase : Options :=
  { ignore := true, ignorePath := some "/base/.eslintignore" }

/-- The context produced by the default construction (`ignore` on, no
ignore file found anywhere): vendor defaults plus the dotfile gate. -/
def ctxDefault : Context :=
  { baseDir := ".",
    ruleSet := [{ pattern := "/node_modules/", isNegation := false },
                { pattern := "/bower_components/", isNegation := false }],
    dotfileRule := true,
    ignoreEnabled := true }

/-- The context produced by construction with the single inline pattern
`undef.js` (`ignore` on, no ignore file found anywhere). -/
def ctxUndef : Context :=
  { baseDir := ".",
    ruleSet := [{ pattern := "undef.js", isNegation := false },
                { pattern := "/node_modules/", isNegation := false },
                { pattern := "/bower_components/", isNegation := false }],
    dotfileRule := true,
    ignoreEnabled := true }

/-! ## Helper lemmas -/

theorem scanRules_append (rules : List Rule) (r : Rule) (p : String) (v : Bool) :
    scanRules (rules ++ [r]) p v =
      if ruleMatches r.pattern p then !r.isNegation else scanRules rules p v := by
  induction rules generalizing v with
  | nil => rfl
  | cons a rs ih =>
    simp only [List.cons_append, scanRules, List.append_eq]
    rw [ih]

theorem scanRules_no_match (rules : List Rule) (p : String) (v : Bool)
    (h : ∀ r ∈ rules, ruleMatches r.pattern p = false) :
    scanRules rules p v = v := by
  induction rules generalizing v with
  | nil => rfl
  | cons a rs ih =>
    have ha : ruleMatches a.pattern p = false := h a (by simp)
    simp only [scanRules, ha, Bool.false_eq_true, if_false]
    exact ih v (fun r hr => h r (by simp [hr]))

theorem segsMatch_undef_cons (suf : List String) :
    segsMatch ["undef.js"] ("undef.js" :: suf) = true := rfl

theorem tailsMatch_undef (pre suf : List String) :
    tailsMatch ["undef.js"] (pre ++ "undef.js" :: suf) = true := by
  induction pre with
  | nil => simp [tailsMatch, segsMatch_undef_cons]
  | cons x xs ih => simp [tailsMatch, ih]

theorem stripDotSlash_eq_spec (l : List Char) :
    stripDotSlash l = if ['.', '/'].isPrefixOf l then l.drop 2 else l := by
  match l with
  | [] => rfl
  | [c] => simp [stripDotSlash, List.isPrefixOf]
  | c1 :: c2 :: rest =>
    by_cases h1 : c1 = '.'
    · by_cases h2 : c2 = '/'
      · subst h1; subst h2; simp [stripDotSlash, List.isPrefixOf]
      · have h2' : ¬('/' = c2) := fun h => h2 h.symm
        simp [stripDotSlash, List.isPrefixOf, h1, h2, h2']
    · have h1' : ¬('.' = c1) := fun h => h1 h.symm
      simp [stripDotSlash, List.isPrefixOf, h1, h1']

/-! ## Claim theorems -/

/-- C7: `normalizeFilepath` replaces every backslash separator with a
forward slash and strips exactly one leading `./`; it is a pure, total
function (it is a Lean function into `String`, so it raises no error for
any input).  The first conjunct proves it equal to the spec-side
restatement; the examples show one `./` being stripped after backslash
replacement, and that only one is stripped. -/
theorem normalizeFilepath_correct :
    (∀ s : String, normalizeFilepath s = normalizeFilepathSpec s) ∧
    normalizeFilepath "././a\\b" = "./a/b" ∧
    normalizeFilepath ".\\foo" = "foo" := by
  refine ⟨?_, rfl, rfl⟩
  intro s
  simp only [normalizeFilepath, normalizeFilepathSpec]
  rw [stripDotSlash_eq_spec, apply_ite String.mk]

/-- C6 counterexample: the claim says `resolveFilepath` fails whenever a
supplied `baseDir` is not absolute, but the source checks `baseDir` with
JavaScript truthiness first, so the supplied empty string — which is not
an absolute path — is routed to the strip-leading-slash branch and the
call succeeds. -/
theorem resolveFilepath_empty_baseDir_counterexample :
    isAbsolutePath "" = false ∧
    resolveFilepath "/a/b" (some "") = Except.ok "a/b" :=
  ⟨rfl, rfl⟩

/-- C6 (amended): `resolveFilepath` fails with the `InvalidArgument` error
whenever `filepath` is not absolute; when `baseDir` is supplied, non-empty
and not absolute it fails with the `InvalidArgument` error for `baseDir`;
when `baseDir` is omitted — or is the empty string, which JavaScript
truthiness treats as omitted — the result is `filepath` with its single
leading separator stripped; when `baseDir` is supplied and absolute the
result is `filepath` made relative to `baseDir`.  The function is pure, so
the call has no side effects. -/
theorem resolveFilepath_contract :
    (∀ (f : String) (b : Option String), isAbsolutePath f = false →
      resolveFilepath f b =
        Except.error (PathError.invalidArgument "filepath should be an absolute path")) ∧
    (∀ (f b : String), isAbsolutePath f = true → b ≠ "" → isAbsolutePath b = false →
      resolveFilepath f (some b) =
        Except.error (PathError.invalidArgument "baseDir should be an absolute path")) ∧
    (∀ f : String, isAbsolutePath f = true →
      resolveFilepath f none = Except.ok (stripLeadingSlash f)) ∧
    (∀ f : String, isAbsolutePath f = true →
      resolveFilepath f (some "") = Except.ok (stripLeadingSlash f)) ∧
    (∀ (f b : String), isAbsolutePath f = true → isAbsolutePath b = true →
      resolveFilepath f (some b) = Except.ok (pathRelative b f)) := by
  refine ⟨?_, ?_, ?_, ?_, ?_⟩
  · intro f b hf; simp [resolveFilepath, hf]
  · intro f b hf hbne hb; simp [resolveFilepath, hf, hbne, hb]
  · intro f hf; simp [resolveFilepath, hf]
  · intro f hf; simp [resolveFilepath, hf]
  · intro f b hf hb
    have hbne : b ≠ "" := by
      intro h; rw [h] at hb; exact absurd hb (by decide)
    simp [resolveFilepath, hf, hb, hbne]

/-- Witness for C6's amended contract at concrete inputs. -/
theorem resolveFilepath_contract_witness :
    resolveFilepath "rel/path.js" none =
      Except.error (PathError.invalidArgument "filepath should be an absolute path") :=
  resolveFilepath_contract.1 "rel/path.js" none rfl

/-- C10: on a freshly constructed generator `selectors` is `null`, and the
first `enterNode` call faults in the lazy selector-population branch —
reading the keys of the never-assigned `_events` property is a `TypeError`
— before any event is emitted, so `emitter.emit(node.type)` is never
reached (the call never returns an `ok` result carrying emitted events). -/
theorem enterNode_first_call_faults :
    (∀ em : EventEmitter, (NodeEventGenerator.new em).selectors = none) ∧
    (∀ (em : EventEmitter) (node : ASTNode),
      NodeEventGenerator.enterNode (NodeEventGenerator.new em) node =
        Except.error (JsExn.typeError "Cannot convert undefined or null to object")) ∧
    (∀ (em : EventEmitter) (node : ASTNode),
      Except.isOk (NodeEventGenerator.enterNode (NodeEventGenerator.new em) node) = false) :=
  ⟨fun _ => rfl, fun _ _ => rfl, fun _ _ => rfl⟩

/-- C2: the synthetic dotfile-exclusion rule is independent of the ignore
toggle — with `ignore:false` and `dotfiles` left at its default (false),
`.foo` and `foo/.bar` are both excluded; with `dotfiles:true` both are
included whatever the `ignore` setting. -/
theorem dotfile_rule_independent_of_ignore :
    containsE fsEmpty { ignore := false } ".foo" = Except.ok true ∧
    containsE fsEmpty { ignore := false } "foo/.bar" = Except.ok true ∧
    ∀ ig : Bool,
      containsE fsEmpty { ignore := ig, dotfiles := true } ".foo" = Except.ok false ∧
      containsE fsEmpty { ignore := ig, dotfiles := true } "foo/.bar" = Except.ok false := by
  refine ⟨rfl, rfl, ?_⟩
  intro ig
  cases ig
  · exact ⟨rfl, rfl⟩
  · exact ⟨rfl, rfl⟩

/-- C3: the two vendor-directory default rules are anchored to the base
directory `/base`: paths directly under `/base/node_modules` (and
`/base/bower_components`) are excluded, but the same vendor directories
nested under a subdirectory are not. -/
theorem default_rules_anchored :
    containsE fsBase optsBase "/base/node_modules/x" = Except.ok true ∧
    containsE fsBase optsBase "/base/foo/node_modules/x" = Except.ok false ∧
    containsE fsBase optsBase "/base/bower_components/x" = Except.ok true ∧
    containsE fsBase optsBase "/base/foo/bower_components/x" = Except.ok false :=
  ⟨rfl, rfl, rfl, rfl⟩

/-- C5: normalization applies to query paths but never to pattern text —
the pattern `./undef2.js` does not match the query `undef2.js`, while the
pattern `undef3.js` does match the query `./undef3.js` (normalized to
`undef3.js`). -/
theorem pattern_query_asymmetry :
    containsE fsEmpty { ignore := true, ignorePattern := ["./undef2.js"] } "undef2.js" =
      Except.ok false ∧
    containsE fsEmpty { ignore := true, ignorePattern := ["undef3.js"] } "./undef3.js" =
      Except.ok true :=
  ⟨rfl, rfl⟩

/-- C1: `contains` evaluates every rule in order with last-match-wins
semantics.  With the ordered fixture lines `dir/*` then `!dir/foo.js`,
`dir/bar.js` is excluded while `dir/foo.js` is re-included by the later
negation; appending a rule to any rule set makes it override the verdict
of all earlier rules whenever it matches; and a query matched by no rule
(the dotfile rule included) is included by default. -/
theorem contains_last_match_wins :
    containsE fsNeg optsNeg "dir/bar.js" = Except.ok true ∧
    containsE fsNeg optsNeg "dir/foo.js" = Except.ok false ∧
    (∀ (rules : List Rule) (r : Rule) (p : String) (v : Bool),
      scanRules (rules ++ [r]) p v =
        if ruleMatches r.pattern p then !r.isNegation else scanRules rules p v) ∧
    (∀ (ctx : Context) (q : String),
      (∀ r ∈ ctx.ruleSet, ruleMatches r.pattern (Context.resolved ctx q) = false) →
      (ctx.dotfileRule && dotfileMatch (Context.resolved ctx q)) = false →
      Context.contains ctx q = false) := by
  refine ⟨rfl, rfl, scanRules_append, ?_⟩
  intro ctx q hr hd
  simp only [Context.contains]
  rw [scanRules_no_match ctx.ruleSet (Context.resolved ctx q) false hr, hd]
  simp

/-- Witness for C1's no-matching-rule conjunct at concrete inputs. -/
theorem contains_last_match_wins_witness :
    Context.contains
      { baseDir := ".",
        ruleSet := [{ pattern := "x", isNegation := false }],
        dotfileRule := true, ignoreEnabled := true } "plain.js" = false :=
  contains_last_match_wins.2.2.2 _ "plain.js" (by decide) (by decide)

/-- C4: the unanchored pattern `undef.js` has directory-prefix semantics —
it excludes the exact path `undef.js`, the fixture children
`undef.js/subfile` and `undef.js/subdir/subfile`, and in general every
query whose normalized relative path contains a segment equal to the
pattern. -/
theorem unanchored_directory_semantics :
    IgnoredPaths.build fsEmpty { ignore := true, ignorePattern := ["undef.js"] } =
      Except.ok ctxUndef ∧
    Context.contains ctxUndef "undef.js" = true ∧
    Context.contains ctxUndef "undef.js/subfile" = true ∧
    Context.contains ctxUndef "undef.js/subdir/subfile" = true ∧
    (∀ q : String, isAbsolutePath (normalizeFilepath q) = false →
      (∃ pre suf, splitOnSlash (normalizeFilepath q) = pre ++ "undef.js" :: suf) →
      Context.contains ctxUndef q = true) := by
  refine ⟨rfl, rfl, rfl, rfl, ?_⟩
  intro q habs hsp
  obtain ⟨pre, suf, hsp⟩ := hsp
  have hres : Context.resolved ctxUndef q = normalizeFilepath q := by
    simp [Context.resolved, habs]
  have hm : ruleMatches "undef.js" (normalizeFilepath q) = true := by
    simp only [ruleMatches,
      show startsWithStr "undef.js" "/" = false from rfl,
      show dropTrailingEmpty (splitOnSlash "undef.js") = ["undef.js"] from rfl,
      Bool.false_eq_true, if_false, hsp]
    exact tailsMatch_undef pre suf
  simp only [Context.contains, hres]
  by_cases hd : (ctxUndef.dotfileRule && dotfileMatch (normalizeFilepath q)) = true
  · simp [hd]
  · simp only [Bool.not_eq_true] at hd
    rw [hd]
    simp only [Bool.false_eq_true, if_false, ctxUndef]
    simp [scanRules, hm]

/-- Witness for C4's universal conjunct at a concrete mid-path segment. -/
theorem unanchored_directory_semantics_witness :
    Context.contains ctxUndef "a/undef.js/b" = true :=
  unanchored_directory_semantics.2.2.2.2 "a/undef.js/b" rfl ⟨["a"], ["b"], rfl⟩

/-- C8: when an explicit ignore-file path is configured but cannot be read,
construction itself (`IgnoredPaths.build`) fails with
`IgnoreFileUnreadable`, and the message contains the phrase
"Cannot read ignore file"; no context is produced, so no query is ever
evaluated. -/
theorem build_ignorefile_unreadable
    (fsRead : String → Option String) (opts : Options) (p : String)
    (hp : opts.ignorePath = some p) (hr : fsRead p = none) :
    IgnoredPaths.build fsRead opts =
      Except.error (IgnoreError.ignoreFileUnreadable ("Cannot read ignore file: " ++ p)) ∧
    List.IsInfix "Cannot read ignore file".toList
      ("Cannot read ignore file: " ++ p).toList := by
  constructor
  · simp [IgnoredPaths.build, locate, hp, hr, Except.map]
  · exact ⟨[], (": " ++ p).toList, rfl⟩

/-- Witness for C8 at a concrete unreadable path. -/
theorem build_ignorefile_unreadable_witness :
    IgnoredPaths.build fsEmpty { ignore := true, ignorePath := some "/x/.foobaz" } =
      Except.error
        (IgnoreError.ignoreFileUnreadable ("Cannot read ignore file: " ++ "/x/.foobaz")) ∧
    List.IsInfix "Cannot read ignore file".toList
        ("Cannot read ignore file: " ++ "/x/.foobaz").toList :=
  build_ignorefile_unreadable fsEmpty
    { ignore := true, ignorePath := some "/x/.foobaz" } "/x/.foobaz" rfl rfl

/-- C9 counterexample: the claim says a relative query of the form `./x`
never matches an anchored default rule at the root, but `./node_modules/x`
is normalized to `node_modules/x`, which the anchored default rule
`/node_modules/` does match, so `contains` returns true. -/
theorem relative_default_match_counterexample :
    containsE fsEmpty { ignore := true } "./node_modules/x" = Except.ok true ∧
    ruleMatches "/node_modules/" (Context.resolved ctxDefault "./node_modules/x") = true :=
  ⟨rfl, rfl⟩

/-- C9 (amended): with only the default rules active, the three example
queries `./foo.js`, `../foo.js` and `/foo/../bar.js` all fall through as
included, because normalization does not resolve `..` segments; and no
query of the form `../x` ever matches either anchored default rule, since
its first segment stays `..`.  A `./x` query, however, is normalized to
`x` and a path containing `/../` keeps its literal segments, so either can
still match an anchored default rule when the remaining literal text does
(e.g. `./node_modules/x`). -/
theorem relative_paths_included :
    IgnoredPaths.build fsEmpty { ignore := true } = Except.ok ctxDefault ∧
    Context.contains ctxDefault "./foo.js" = false ∧
    Context.contains ctxDefault "../foo.js" = false ∧
    Context.contains ctxDefault "/foo/../bar.js" = false ∧
    (∀ rest : String,
      ruleMatches "/node_modules/" (Context.resolved ctxDefault ("../" ++ rest)) = false ∧
      ruleMatches "/bower_components/" (Context.resolved ctxDefault ("../" ++ rest)) = false) :=
  ⟨rfl, rfl, rfl, rfl, fun _rest => ⟨rfl, rfl⟩⟩
